import Mathlib

/-!
Route handlers of todolist-v2 (`src/todolist-v2/todos.js`) over the session's list
collection.

The session's `todoLists` array is a `List TodoList`; every handler is a function
from the state it is entered with and the request inputs (path parameters and the
body field, as the strings Express hands over) to a `Result`: the state it leaves,
the response calls it made, in order, and the exception it threw, if any.  An
in-place mutation of an object found in the array is the replacement of that
element.  `Number` and the `trim` sanitizer are modelled after ECMAScript and
validator.js, and `isLength` counts as validator.js does: the code points of the
string, the variation selectors U+FE0E and U+FE0F left out.
-/

namespace Todos

/-! ## JavaScript values used by the handlers -/

/-- White space as matched by the JavaScript regular expression class `\s`, which is
also the `StrWhiteSpaceChar` set stripped by `Number` before it reads a literal. -/
def isSpace (c : Char) : Bool :=
  let n := c.toNat
  n == 0x09 || n == 0x0A || n == 0x0B || n == 0x0C || n == 0x0D || n == 0x20 ||
  n == 0xA0 || n == 0x1680 || (0x2000 ≤ n && n ≤ 0x200A) || n == 0x2028 ||
  n == 0x2029 || n == 0x202F || n == 0x205F || n == 0x3000 || n == 0xFEFF

/-- Removes the leading run of white space (validator `ltrim`, pattern `^\s+`). -/
def ltrim : List Char → List Char
  | [] => []
  | c :: cs => if isSpace c then ltrim cs else c :: cs

/-- Removes the trailing run of white space (validator `rtrim`). -/
def rtrim (cs : List Char) : List Char :=
  (ltrim cs.reverse).reverse

/-- The `.trim()` sanitizer of the validation chains: `rtrim(ltrim(str))`. -/
def trim (s : String) : String :=
  String.mk (rtrim (ltrim s.data))

/-- A JavaScript number: `NaN`, an infinity, or the finite double
`(-1)^neg * sig * 2^exp`. -/
inductive JSNumber where
  | nan : JSNumber
  | inf (neg : Bool) : JSNumber
  | fin (neg : Bool) (sig : Nat) (exp : Int) : JSNumber
deriving DecidableEq, Repr

/-- Number of binary digits of `n`, counted with `fuel` halvings (`fuel = n` is always
enough). -/
def bitLength : Nat → Nat → Nat
  | 0, _ => 0
  | fuel + 1, n => if n = 0 then 0 else bitLength fuel (n / 2) + 1

/-- Rounds the positive rational `num / den` to the nearest double, ties to even
(the `RoundMVResult` step of `StringToNumber`). -/
def roundToDouble (neg : Bool) (num den : Nat) : JSNumber :=
  if num = 0 ∨ den = 0 then JSNumber.fin neg 0 0
  else
    let c : Int := (bitLength num num : Int) - (bitLength den den : Int)
    let ge : Bool := if 0 ≤ c then den * 2 ^ c.toNat ≤ num else den ≤ num * 2 ^ (-c).toNat
    let e : Int := if ge then c else c - 1
    let q : Int := max e (-1022) - 52
    let n : Nat := if 0 ≤ q then num else num * 2 ^ (-q).toNat
    let d : Nat := if 0 ≤ q then den * 2 ^ q.toNat else den
    let s := n / d
    let r := n % d
    let s := if d < 2 * r ∨ (2 * r = d ∧ s % 2 = 1) then s + 1 else s
    if 0 ≤ q ∧ 2 ^ 1024 ≤ s * 2 ^ q.toNat then JSNumber.inf neg
    else if s = 0 then JSNumber.fin neg 0 0
    else JSNumber.fin neg s q

/-- Value of a digit character in the given radix, if it is one. -/
def digitValue (radix : Nat) (c : Char) : Option Nat :=
  let n := c.toNat
  let v : Option Nat :=
    if 0x30 ≤ n ∧ n ≤ 0x39 then some (n - 0x30)
    else if 0x61 ≤ n ∧ n ≤ 0x66 then some (n - 0x61 + 10)
    else if 0x41 ≤ n ∧ n ≤ 0x46 then some (n - 0x41 + 10)
    else none
  match v with
  | some d => if d < radix then some d else none
  | none => none

/-- Reads a whole character list as digits of the given radix; `none` when the list is
empty or holds another character. -/
def readDigits (radix : Nat) : List Char → Nat → Option Nat
  | [], acc => some acc
  | c :: cs, acc =>
    match digitValue radix c with
    | some d => readDigits radix cs (acc * radix + d)
    | none => none

/-- Reads all of `cs` as a non-empty run of digits. -/
def readAllDigits (radix : Nat) (cs : List Char) : Option Nat :=
  if cs.isEmpty then none else readDigits radix cs 0

/-- Splits off the leading run of decimal digits. -/
def spanDigits : List Char → List Char × List Char
  | [] => ([], [])
  | c :: cs =>
    if (digitValue 10 c).isSome then
      let p := spanDigits cs
      (c :: p.1, p.2)
    else ([], c :: cs)

/-- The `ExponentPart` of a decimal literal: nothing, or `e`/`E`, an optional sign
and at least one digit.  The outer `none` marks a malformed exponent. -/
def readExponent : List Char → Option Int
  | [] => some 0
  | c :: cs =>
    if c = 'e' ∨ c = 'E' then
      match cs with
      | '+' :: ds => (readAllDigits 10 ds).map Int.ofNat
      | '-' :: ds => (readAllDigits 10 ds).map (fun n => - Int.ofNat n)
      | ds => (readAllDigits 10 ds).map Int.ofNat
    else none

/-- The `StrUnsignedDecimalLiteral` production: `Infinity`, or digits with an optional
fraction and exponent, rounded to a double. -/
def readUnsignedDecimal (neg : Bool) (cs : List Char) : JSNumber :=
  if cs = "Infinity".data then JSNumber.inf neg
  else
    let p := spanDigits cs
    let intDigits := p.1
    let q : List Char × List Char :=
      match p.2 with
      | '.' :: rest => spanDigits rest
      | _ => ([], p.2)
    let hasDot : Bool := match p.2 with
      | '.' :: _ => true
      | _ => false
    let fracDigits := q.1
    if intDigits.isEmpty ∧ fracDigits.isEmpty then JSNumber.nan
    else if intDigits.isEmpty ∧ ¬ hasDot then JSNumber.nan
    else
      match readDigits 10 (intDigits ++ fracDigits) 0, readExponent q.2 with
      | some m, some e =>
        let e10 : Int := e - (fracDigits.length : Int)
        if 0 ≤ e10 then roundToDouble neg (m * 10 ^ e10.toNat) 1
        else roundToDouble neg m (10 ^ (-e10).toNat)
      | _, _ => JSNumber.nan

/-- The `StrNumericLiteral` production on a trimmed character list. -/
def readNumeric (cs : List Char) : JSNumber :=
  match cs with
  | [] => JSNumber.fin false 0 0
  | '0' :: x :: rest =>
    if x = 'x' ∨ x = 'X' then
      match readAllDigits 16 rest with
      | some n => roundToDouble false n 1
      | none => JSNumber.nan
    else if x = 'o' ∨ x = 'O' then
      match readAllDigits 8 rest with
      | some n => roundToDouble false n 1
      | none => JSNumber.nan
    else if x = 'b' ∨ x = 'B' then
      match readAllDigits 2 rest with
      | some n => roundToDouble false n 1
      | none => JSNumber.nan
    else readUnsignedDecimal false cs
  | '+' :: rest => readUnsignedDecimal false rest
  | '-' :: rest => readUnsignedDecimal true rest
  | _ => readUnsignedDecimal false cs

/-- JavaScript `Number(str)` on a string (`StringToNumber`): white space is stripped
from both ends, an empty remainder is `0`, a numeric literal is its rounded value,
anything else is `NaN`. -/
def Number (s : String) : JSNumber :=
  readNumeric (rtrim (ltrim s.data))

/-- Strict equality `id === n` between an integer id and a JavaScript number. -/
def strictEq (id : Nat) (n : JSNumber) : Bool :=
  match n with
  | JSNumber.nan => false
  | JSNumber.inf _ => false
  | JSNumber.fin neg sig exp =>
    (!neg || sig == 0) &&
      (if 0 ≤ exp then sig * 2 ^ exp.toNat == id else sig == id * 2 ^ (-exp).toNat)

/-- Whether a JavaScript number is a positive integer. -/
def isPositiveInteger (n : JSNumber) : Bool :=
  match n with
  | JSNumber.nan => false
  | JSNumber.inf _ => false
  | JSNumber.fin neg sig exp =>
    !neg && sig != 0 && (if 0 ≤ exp then true else sig % 2 ^ (-exp).toNat == 0)

/-- The specification's "decimal text of a positive integer": a non-empty run of the
digits `0` to `9`, not all of them `0`. -/
def isPositiveDecimalText (s : String) : Bool :=
  !s.data.isEmpty && s.data.all (fun c => (digitValue 10 c).isSome) &&
    s.data.any (fun c => c != '0')

/-! ## Data model

`lib/todo.js`, `lib/todolist.js` and `lib/sort.js` are required by `todos.js` but are
not among the sources; the classes and the sort functions below follow the
specification's description of them. -/

/-- Modelled from the spec: the `Todo` class of the absent `lib/todo.js`,
`{ id: integer, title: string, done: boolean }`. -/
structure Todo where
  id : Nat
  title : String
  done : Bool
deriving DecidableEq, Repr

namespace Todo

/-- Modelled from the spec: `Todo.isDone` of the absent `lib/todo.js`, "query
done-state". -/
def isDone (t : Todo) : Bool := t.done

/-- Modelled from the spec: `Todo.markDone` of the absent `lib/todo.js`, "mark done". -/
def markDone (t : Todo) : Todo := { t with done := true }

/-- Modelled from the spec: `Todo.markUndone` of the absent `lib/todo.js`, "mark
undone". -/
def markUndone (t : Todo) : Todo := { t with done := false }

/-- Modelled from the spec: the constructor of the absent `lib/todo.js`; the id is
"sequentially assigned", here the successor of the last id handed out, and a new
todo is not done. -/
def new (currentId : Nat) (title : String) : Todo :=
  { id := currentId + 1, title := title, done := false }

end Todo

/-- Modelled from the spec: the `TodoList` class of the absent `lib/todolist.js`,
`{ id: integer, title: string, todos: ordered sequence of Todo }`. -/
structure TodoList where
  id : Nat
  title : String
  todos : List Todo
deriving DecidableEq, Repr

namespace TodoList

/-- Modelled from the spec: the constructor of the absent `lib/todolist.js`; "id
assigned monotonically at creation", here the successor of the last id handed out,
and a new list holds no todos. -/
def new (currentId : Nat) (title : String) : TodoList :=
  { id := currentId + 1, title := title, todos := [] }

/-- Modelled from the spec: `add(todo)` "appends to the end of the sequence". -/
def add (l : TodoList) (todo : Todo) : TodoList :=
  { l with todos := l.todos ++ [todo] }

/-- Modelled from the spec: `findIndexOf(todo)`, the position of the todo in the
sequence (the length of the sequence when it is absent). -/
def findIndexOf (l : TodoList) (todo : Todo) : Nat :=
  l.todos.indexOf todo

/-- Modelled from the spec: `removeAt(index)` "deletes one entry", and nothing when
there is no entry at the index. -/
def removeAt (l : TodoList) (index : Nat) : TodoList :=
  { l with todos := l.todos.eraseIdx index }

/-- Modelled from the spec: `markAllDone()` "sets every contained Todo to done". -/
def markAllDone (l : TodoList) : TodoList :=
  { l with todos := l.todos.map Todo.markDone }

/-- Modelled from the spec: `setTitle(title)` "replaces title". -/
def setTitle (l : TodoList) (title : String) : TodoList :=
  { l with title := title }

/-- Modelled from the spec: `isDone()` is "true iff non-empty and every Todo is
done". -/
def isDone (l : TodoList) : Bool :=
  !l.todos.isEmpty && l.todos.all Todo.isDone

end TodoList

/-- Modelled from the spec: the display order of `lib/sort.js`, "by done-state
(incomplete first) then by title, case-insensitive, ascending". -/
def displayLe (doneA : Bool) (titleA : String) (doneB : Bool) (titleB : String) : Bool :=
  (!doneA && doneB) || (doneA == doneB && !decide (titleB.toLower < titleA.toLower))

/-- Modelled from the spec: `sortTodoLists(lists)` of the absent `lib/sort.js`, a
non-mutating sort of the lists into display order. -/
def sortTodoLists (lists : List TodoList) : List TodoList :=
  lists.insertionSort (fun a b => displayLe a.isDone a.title b.isDone b.title = true)

/-- Modelled from the spec: `sortTodos(list)` of the absent `lib/sort.js`, "same
tie-break policy applied to contained todos". -/
def sortTodos (list : TodoList) : List Todo :=
  list.todos.insertionSort (fun a b => displayLe a.isDone a.title b.isDone b.title = true)

/-! ## Request state and response actions -/

/-- What a request handler works on: the id counter behind the constructors, the
session's `todoLists` array (after the middleware of lines 36-46 has turned the
stored data back into `TodoList` objects) and the session's flash messages as
`(type, message)` pairs in the order they were flashed. -/
structure State where
  currentId : Nat
  todoLists : List TodoList
  flash : List (String × String)
deriving DecidableEq, Repr

/-- The session of a first visit: no lists, no flash messages. -/
def State.empty : State := { currentId := 0, todoLists := [], flash := [] }

/-- The local variables handed to a view by `res.render`. -/
structure Locals where
  flash : Option (List (String × String)) := none
  todoListTitle : Option String := none
  todoTitle : Option String := none
  todoList : Option TodoList := none
  todos : Option (List Todo) := none
  todoLists : Option (List TodoList) := none
deriving DecidableEq, Repr

/-- One response action of a handler. -/
inductive Action where
  /-- Models `next(new Error(message))`: hands the error to the error handler. -/
  | next (message : String) : Action
  /-- Models `res.redirect(path)`. -/
  | redirect (path : String) : Action
  /-- Models `res.render(view, locals)`. -/
  | render (view : String) (locals : Locals) : Action
deriving DecidableEq, Repr

/-- Outcome of running a handler: the state it leaves, the response calls it made, in
order, and the exception its own statements raised, if any.  The calls are recorded
as made; whether Express lets one take effect (a redirect after the error handler
has already answered does not) is not part of the record. -/
structure Result where
  state : State
  actions : List Action
  threw : Option String := none
deriving DecidableEq, Repr

/-- An HTTP response as the error handler produces it. -/
structure Response where
  status : Nat
  body : String
deriving DecidableEq, Repr

/-- Models the error handler of lines 293-296, `res.status(404).send(err.message)`. -/
def errorHandler (message : String) : Response :=
  { status := 404, body := message }

/-- Models the middleware of lines 48-52: the flash messages move to `res.locals` and
leave the session. -/
def flashMiddleware (st : State) : State :=
  { st with flash := [] }

/-- Models `req.flash(type, message)`. -/
def State.addFlash (st : State) (type message : String) : State :=
  { st with flash := st.flash ++ [(type, message)] }

/-- Replaces the first element satisfying `p` by its image under `f`: the effect of
mutating in place the object that `Array.prototype.find` returned. -/
def modifyFirst {α : Type} (p : α → Bool) (f : α → α) : List α → List α
  | [] => []
  | x :: xs => if p x then f x :: xs else x :: modifyFirst p f xs

/-- Models `Array.prototype.findIndex`: the position of the first element satisfying
`p`, `none` standing for the `-1` of an array without one. -/
def findIndex {α : Type} (p : α → Bool) : List α → Option Nat
  | [] => none
  | x :: xs => if p x then some 0 else (findIndex p xs).map (fun i => i + 1)

/-- Models `loadTodoList` (lines 56-58): the first list whose id is strictly equal
to `todoListId`. -/
def loadTodoList (todoListId : JSNumber) (todoLists : List TodoList) : Option TodoList :=
  todoLists.find? (fun todoList => strictEq todoList.id todoListId)

/-- Models `loadTodo` (lines 60-65). -/
def loadTodo (todoListId todoId : JSNumber) (todoLists : List TodoList) : Option Todo :=
  match loadTodoList todoListId todoLists with
  | none => none
  | some todoList => todoList.todos.find? (fun todo => strictEq todo.id todoId)

/-! ## Validation chains -/

/-- The `.custom` validator shared by the three chains: passes when
`todoLists.find(list => list.title === title)` is `undefined`. -/
def isUniqueTitle (todoLists : List TodoList) (title : String) : Bool :=
  (todoLists.find? (fun list => list.title == title)).isNone

/-- The variation selectors U+FE0E and U+FE0F (the pattern `(\uFE0F|\uFE0E)` of
validator.js `isLength`). -/
def isVariationSelector (c : Char) : Bool :=
  c.toNat == 0xFE0E || c.toNat == 0xFE0F

/-- The length validator.js `isLength` compares with its bounds,
`str.length - presentationSequences.length - surrogatePairs.length`: the UTF-16
length less one for every surrogate pair is the number of code points, and every
variation selector is taken off it. -/
def countedLength (str : String) : Nat :=
  str.length - (str.data.filter isVariationSelector).length

/-- Models validator.js `isLength(str, { min, max })`: `len >= min` and, when `max` is
given, `len <= max`; an absent `min` is passed as `0`. -/
def isLength (str : String) (min : Nat) (max : Option Nat) : Bool :=
  decide (min ≤ countedLength str) &&
    (match max with
     | none => true
     | some m => decide (countedLength str ≤ m))

/-- A validation chain of `todos.js`: `trim`, `isLength({ min: 1 })` with `bail`, then
`isLength({ max: 100 })` and the uniqueness check, each with its message.  Returns
the sanitized field (which replaces the field in `req.body`) and the messages of
the failed validators. -/
def validateTitle (required tooLong notUnique : String) (todoLists : List TodoList)
    (field : String) : String × List String :=
  let title := trim field
  if isLength title 1 none then
    (title,
      (if isLength title 0 (some 100) then [] else [tooLong]) ++
      (if isUniqueTitle todoLists title then [] else [notUnique]))
  else (title, [required])

/-- The chain of `POST /lists` (lines 82-96). -/
def validateNewList (todoLists : List TodoList) (todoListTitle : String) :
    String × List String :=
  validateTitle "The list title is required"
    "List title must be between 1 and 100 characters" "List title must be unique"
    todoLists todoListTitle

/-- The chain of `POST /lists/:todoListId/todos` (lines 196-210). -/
def validateNewTodo (todoLists : List TodoList) (todoTitle : String) :
    String × List String :=
  validateTitle "The list title is required"
    "List title must be between 1 and 100 characters" "List title must be unique"
    todoLists todoTitle

/-- The chain of `POST /lists/:todoListId/edit` (lines 253-267). -/
def validateEditList (todoLists : List TodoList) (todoListTitle : String) :
    String × List String :=
  validateTitle "Title is required!" "Title must be shorter than 100 characters!"
    "Title must be unique or different!" todoLists todoListTitle

/-- Models `errors.array().forEach(error => req.flash("error", error.msg))`. -/
def flashErrors (st : State) (errors : List String) : State :=
  { st with flash := st.flash ++ errors.map (fun msg => ("error", msg)) }

/-! ## Route handlers -/

/-- Handler of `GET /` (lines 67-69). -/
def getRoot (st : State) : Result :=
  { state := st, actions := [Action.redirect "/lists"] }

/-- Handler of `GET /lists/new` (lines 71-73). -/
def getNew (st : State) : Result :=
  { state := st, actions := [Action.render "new-list" {}] }

/-- Handler of `GET /lists` (lines 75-79). -/
def getLists (st : State) : Result :=
  { state := st,
    actions := [Action.render "lists" { todoLists := some (sortTodoLists st.todoLists) }] }

/-- Handler of `POST /lists` (lines 81-111). -/
def postLists (st : State) (todoListTitle : String) : Result :=
  let v := validateNewList st.todoLists todoListTitle
  if v.2.isEmpty then
    { state :=
        State.addFlash
          { st with
            currentId := st.currentId + 1
            todoLists := st.todoLists ++ [TodoList.new st.currentId v.1] }
          "success" "The todo list has been created",
      actions := [Action.redirect "/lists"] }
  else
    let flashed := flashErrors st v.2
    { state := { flashed with flash := [] },
      actions :=
        [Action.render "new-list" { flash := some flashed.flash, todoListTitle := some v.1 }] }

/-- Handler of `GET /lists/:todoListId` (lines 114-126). -/
def getList (st : State) (todoListId : String) : Result :=
  match loadTodoList (Number todoListId) st.todoLists with
  | none => { state := st, actions := [Action.next "Not found"] }
  | some todoList =>
    { state := st,
      actions :=
        [Action.render "list" { todoList := some todoList, todos := some (sortTodos todoList) }] }

/-- The session's lists after the todo that `loadTodo` returns has been mutated by
`f`. -/
def mutateTodo (todoListId todoId : JSNumber) (f : Todo → Todo)
    (todoLists : List TodoList) : List TodoList :=
  modifyFirst (fun todoList => strictEq todoList.id todoListId)
    (fun todoList =>
      { todoList with
        todos := modifyFirst (fun todo => strictEq todo.id todoId) f todoList.todos })
    todoLists

/-- The session's lists after the list that `loadTodoList` returns has been mutated
by `f`. -/
def mutateTodoList (todoListId : JSNumber) (f : TodoList → TodoList)
    (todoLists : List TodoList) : List TodoList :=
  modifyFirst (fun todoList => strictEq todoList.id todoListId) f todoLists

/-- Handler of `POST /lists/:todoListId/todos/:todoId/toggle` (lines 129-147).  The
redirect of line 146 stands after the `if`/`else`, so it runs in both branches. -/
def postToggle (st : State) (todoListId todoId : String) : Result :=
  match loadTodo (Number todoListId) (Number todoId) st.todoLists with
  | none =>
    { state := st,
      actions := [Action.next "Not found", Action.redirect ("/lists/" ++ todoListId)] }
  | some todo =>
    let title := todo.title
    if todo.isDone then
      { state :=
          State.addFlash
            { st with
              todoLists :=
                mutateTodo (Number todoListId) (Number todoId) Todo.markUndone st.todoLists }
            "success" ("\"" ++ title ++ "\" marked incomplete!"),
        actions := [Action.redirect ("/lists/" ++ todoListId)] }
    else
      { state :=
          State.addFlash
            { st with
              todoLists :=
                mutateTodo (Number todoListId) (Number todoId) Todo.markDone st.todoLists }
            "success" ("\"" ++ title ++ "\" marked complete!"),
        actions := [Action.redirect ("/lists/" ++ todoListId)] }

/-- Handler of `POST /lists/:todoListId/todos/:todoId/destroy` (lines 150-163). -/
def postDestroyTodo (st : State) (todoListId todoId : String) : Result :=
  match loadTodoList (Number todoListId) st.todoLists,
      loadTodo (Number todoListId) (Number todoId) st.todoLists with
  | some _, some todo =>
    let title := todo.title
    { state :=
        State.addFlash
          { st with
            todoLists :=
              mutateTodoList (Number todoListId)
                (fun todoList => todoList.removeAt (todoList.findIndexOf todo)) st.todoLists }
          "success" ("Removed \"" ++ title ++ "!\""),
      actions := [Action.redirect ("/lists/" ++ todoListId)] }
  | _, _ => { state := st, actions := [Action.next "Not Found"] }

/-- Handler of `POST /lists/:todoListId/destroy` (lines 166-178).  Its parameter list
is `(req, res)`: the name `next` used on line 171 is bound nowhere, so evaluating
it throws a `ReferenceError` before any error object reaches the error handler. -/
def postDestroyList (st : State) (todoListId : String) : Result :=
  match findIndex (fun todoList => strictEq todoList.id (Number todoListId)) st.todoLists with
  | none =>
    { state := st, actions := [], threw := some "ReferenceError: next is not defined" }
  | some index =>
    -- `todoLists.splice(index, 1)`
    { state :=
        State.addFlash { st with todoLists := st.todoLists.eraseIdx index }
          "success" "Todo list deleted.",
      actions := [Action.redirect "/lists"] }

/-- Handler of `POST /lists/:todoListId/complete_all` (lines 181-192). -/
def postCompleteAll (st : State) (todoListId : String) : Result :=
  match loadTodoList (Number todoListId) st.todoLists with
  | none => { state := st, actions := [Action.next "Not Found"] }
  | some _ =>
    { state :=
        State.addFlash
          { st with
            todoLists := mutateTodoList (Number todoListId) TodoList.markAllDone st.todoLists }
          "success" "Marked all tasks complete!",
      actions := [Action.redirect ("/lists/" ++ todoListId)] }

/-- Handler of `POST /lists/:todoListId/todos` (lines 195-237). -/
def postTodos (st : State) (todoListId todoTitle : String) : Result :=
  let v := validateNewTodo st.todoLists todoTitle
  match loadTodoList (Number todoListId) st.todoLists with
  | none => { state := st, actions := [Action.next "Not Found"] }
  | some todoList =>
    if v.2.isEmpty then
      { state :=
          State.addFlash
            { st with
              currentId := st.currentId + 1
              todoLists :=
                mutateTodoList (Number todoListId)
                  (fun l => l.add (Todo.new st.currentId v.1)) st.todoLists }
            "success" "Task added to list!",
        actions := [Action.redirect ("/lists/" ++ todoListId)] }
    else
      let flashed := flashErrors st v.2
      { state := { flashed with flash := [] },
        actions :=
          [Action.render "list"
            { flash := some flashed.flash, todoList := some todoList,
              todos := some (sortTodos todoList), todoTitle := some v.1 }] }

/-- Handler of `GET /lists/:todoListId/edit` (lines 240-249). -/
def getEdit (st : State) (todoListId : String) : Result :=
  match loadTodoList (Number todoListId) st.todoLists with
  | none => { state := st, actions := [Action.next "Not Found"] }
  | some todoList =>
    { state := st, actions := [Action.render "edit-list" { todoList := some todoList }] }

/-- Handler of `POST /lists/:todoListId/edit` (lines 252-290). -/
def postEdit (st : State) (todoListId todoListTitle : String) : Result :=
  let v := validateEditList st.todoLists todoListTitle
  match loadTodoList (Number todoListId) st.todoLists with
  | none => { state := st, actions := [Action.next "Not Found"] }
  | some todoList =>
    if v.2.isEmpty then
      { state :=
          State.addFlash
            { st with
              todoLists :=
                mutateTodoList (Number todoListId) (fun l => l.setTitle v.1) st.todoLists }
            "success" "Todo title changed!",
        actions := [Action.redirect ("/lists/" ++ todoListId)] }
    else
      let flashed := flashErrors st v.2
      { state := { flashed with flash := [] },
        actions :=
          [Action.render "edit-list"
            { flash := some flashed.flash, todoListTitle := some v.1,
              todos := some (sortTodos todoList) }] }

/-- The requests the application routes. -/
inductive Request where
  | getRoot : Request
  | getNew : Request
  | getLists : Request
  | postLists (todoListTitle : String) : Request
  | getList (todoListId : String) : Request
  | postToggle (todoListId todoId : String) : Request
  | postDestroyTodo (todoListId todoId : String) : Request
  | postDestroyList (todoListId : String) : Request
  | postCompleteAll (todoListId : String) : Request
  | postTodos (todoListId todoTitle : String) : Request
  | getEdit (todoListId : String) : Request
  | postEdit (todoListId todoListTitle : String) : Request
deriving DecidableEq, Repr

/-- Runs the middleware of lines 48-52 and then the handler the request is routed
to. -/
def handle (st : State) : Request → Result
  | Request.getRoot => getRoot (flashMiddleware st)
  | Request.getNew => getNew (flashMiddleware st)
  | Request.getLists => getLists (flashMiddleware st)
  | Request.postLists t => postLists (flashMiddleware st) t
  | Request.getList i => getList (flashMiddleware st) i
  | Request.postToggle i j => postToggle (flashMiddleware st) i j
  | Request.postDestroyTodo i j => postDestroyTodo (flashMiddleware st) i j
  | Request.postDestroyList i => postDestroyList (flashMiddleware st) i
  | Request.postCompleteAll i => postCompleteAll (flashMiddleware st) i
  | Request.postTodos i t => postTodos (flashMiddleware st) i t
  | Request.getEdit i => getEdit (flashMiddleware st) i
  | Request.postEdit i t => postEdit (flashMiddleware st) i t

/-- The title invariant in the specification's words: every list has a non-empty
title of at most 100 characters and no two lists share a title. -/
def TitlesValid (todoLists : List TodoList) : Prop :=
  (∀ l ∈ todoLists, 1 ≤ l.title.length ∧ l.title.length ≤ 100) ∧
    (todoLists.map (fun l => l.title)).Nodup

/-- The title invariant with the length measured as `isLength` measures it: every
list has a title that counts 1 to 100 and no two lists share a title. -/
def TitlesCounted (todoLists : List TodoList) : Prop :=
  (∀ l ∈ todoLists, 1 ≤ countedLength l.title ∧ countedLength l.title ≤ 100) ∧
    (todoLists.map (fun l => l.title)).Nodup

/-! ## Sample data -/

/-- A title of one character, the variation selector U+FE0F. -/
def selectorTitle : String :=
  String.mk [Char.ofNat 0xFE0F]

/-- A title of 101 characters: a hundred times `a`, then the variation selector
U+FE0F. -/
def longTitle : String :=
  String.mk (List.replicate 100 'a' ++ [Char.ofNat 0xFE0F])

/-- A list with one finished todo. -/
def sampleWork : TodoList :=
  { id := 3, title := "Work", todos := [{ id := 4, title := "Mail", done := true }] }

/-- A session with two lists, used to instantiate the statements below. -/
def sampleState : State :=
  { currentId := 4,
    todoLists :=
      [{ id := 1, title := "Home", todos := [{ id := 2, title := "Sweep", done := false }] },
       sampleWork],
    flash := [] }


/-! ## Validation lemmas -/

theorem isUniqueTitle_eq_true {todoLists : List TodoList} {title : String} :
    isUniqueTitle todoLists title = true ↔ ∀ l ∈ todoLists, l.title ≠ title := by
  simp [isUniqueTitle, List.find?_eq_none]

theorem isUniqueTitle_eq_false {todoLists : List TodoList} {title : String} :
    isUniqueTitle todoLists title = false ↔ ∃ l ∈ todoLists, l.title = title := by
  rw [← Bool.not_eq_true, isUniqueTitle_eq_true]
  push_neg
  rfl

theorem isLength_min (str : String) :
    isLength str 1 none = true ↔ 1 ≤ countedLength str := by
  simp [isLength]

theorem isLength_max (str : String) :
    isLength str 0 (some 100) = true ↔ countedLength str ≤ 100 := by
  simp [isLength]

theorem countedLength_le_length (str : String) : countedLength str ≤ str.length :=
  Nat.sub_le _ _

theorem validateTitle_fst (a b c : String) (todoLists : List TodoList) (field : String) :
    (validateTitle a b c todoLists field).1 = trim field := by
  simp only [validateTitle]
  split <;> rfl

theorem validateTitle_isEmpty (a b c : String) (todoLists : List TodoList) (field : String) :
    (validateTitle a b c todoLists field).2.isEmpty = true ↔
      1 ≤ countedLength (trim field) ∧ countedLength (trim field) ≤ 100 ∧
        ∀ l ∈ todoLists, l.title ≠ trim field := by
  simp only [validateTitle]
  cases h1 : isLength (trim field) 1 none with
  | false =>
    have h1n : ¬ 1 ≤ countedLength (trim field) := by
      rw [← isLength_min, h1]
      exact Bool.false_ne_true
    constructor
    · intro h
      cases h
    · rintro ⟨h, _, _⟩
      exact absurd h h1n
  | true =>
    have h1p : 1 ≤ countedLength (trim field) := (isLength_min _).mp h1
    cases h2 : isLength (trim field) 0 (some 100) with
    | false =>
      have h2n : ¬ countedLength (trim field) ≤ 100 := by
        rw [← isLength_max, h2]
        exact Bool.false_ne_true
      constructor
      · intro h
        simp at h
      · rintro ⟨_, h, _⟩
        exact absurd h h2n
    | true =>
      have h2p : countedLength (trim field) ≤ 100 := (isLength_max _).mp h2
      cases h3 : isUniqueTitle todoLists (trim field) with
      | false =>
        obtain ⟨l, hl, hlt⟩ := isUniqueTitle_eq_false.mp h3
        constructor
        · intro h
          simp at h
        · rintro ⟨_, _, hu⟩
          exact absurd hlt (hu l hl)
      | true =>
        constructor
        · intro _
          exact ⟨h1p, h2p, isUniqueTitle_eq_true.mp h3⟩
        · intro _
          simp

/-! ## Lemmas on in-place mutation of the first match -/

theorem modifyFirst_map_of_preserve {α β : Type} (p : α → Bool) (f : α → α) (g : α → β)
    (hf : ∀ x, g (f x) = g x) (l : List α) : (modifyFirst p f l).map g = l.map g := by
  induction l with
  | nil => rfl
  | cons x xs ih =>
    simp only [modifyFirst]
    split
    · simp [hf]
    · simp [ih]

theorem find?_modifyFirst {α : Type} (p : α → Bool) (f : α → α)
    (hp : ∀ x, p (f x) = p x) (l : List α) :
    (modifyFirst p f l).find? p = (l.find? p).map f := by
  induction l with
  | nil => rfl
  | cons x xs ih =>
    simp only [modifyFirst]
    by_cases hx : p x = true
    · simp [hx, List.find?, hp]
    · simp [hx, List.find?, ih]

theorem modifyFirst_modifyFirst {α : Type} (p : α → Bool) (f g : α → α)
    (hp : ∀ x, p (f x) = p x) (l : List α) :
    modifyFirst p g (modifyFirst p f l) = modifyFirst p (fun x => g (f x)) l := by
  induction l with
  | nil => rfl
  | cons x xs ih =>
    by_cases hx : p x = true
    · simp [modifyFirst, hx, hp]
    · simp [modifyFirst, hx, ih]

theorem modifyFirst_eq_self {α : Type} (p : α → Bool) (f : α → α) (l : List α)
    (h : ∀ x, l.find? p = some x → f x = x) : modifyFirst p f l = l := by
  induction l with
  | nil => rfl
  | cons x xs ih =>
    by_cases hx : p x = true
    · have := h x (by simp [List.find?, hx])
      simp [modifyFirst, hx, this]
    · have hxs : ∀ y, xs.find? p = some y → f y = y := by
        intro y hy
        exact h y (by simpa [List.find?, hx] using hy)
      simp [modifyFirst, hx, ih hxs]

theorem modifyFirst_mem {α : Type} (p : α → Bool) (f : α → α) (l : List α) (y : α)
    (hy : y ∈ modifyFirst p f l) : y ∈ l ∨ ∃ x ∈ l, p x = true ∧ y = f x := by
  induction l with
  | nil => cases hy
  | cons x xs ih =>
    by_cases hx : p x = true
    · rw [modifyFirst, if_pos hx, List.mem_cons] at hy
      rcases hy with rfl | hy
      · exact Or.inr ⟨x, List.mem_cons_self _ _, hx, rfl⟩
      · exact Or.inl (List.mem_cons_of_mem _ hy)
    · rw [modifyFirst, if_neg hx, List.mem_cons] at hy
      rcases hy with rfl | hy
      · exact Or.inl (List.mem_cons_self _ _)
      · rcases ih hy with h | ⟨z, hz, hpz, rfl⟩
        · exact Or.inl (List.mem_cons_of_mem _ h)
        · exact Or.inr ⟨z, List.mem_cons_of_mem _ hz, hpz, rfl⟩

/-- Strict equality with a fixed number singles out at most one integer. -/
theorem strictEq_inj {a b : Nat} {n : JSNumber} (ha : strictEq a n = true)
    (hb : strictEq b n = true) : a = b := by
  cases n with
  | nan => simp [strictEq] at ha
  | inf neg => simp [strictEq] at ha
  | fin neg sig exp =>
    simp only [strictEq, Bool.and_eq_true] at ha hb
    by_cases he : 0 ≤ exp
    · have h1 := ha.2
      have h2 := hb.2
      simp only [he, if_true, beq_iff_eq] at h1 h2
      omega
    · have h1 := ha.2
      have h2 := hb.2
      simp only [he, if_false, beq_iff_eq] at h1 h2
      have hpos : 0 < 2 ^ (-exp).toNat := Nat.pos_pow_of_pos _ (by decide)
      exact Nat.eq_of_mul_eq_mul_right hpos (h1.symm.trans h2)

theorem loadTodoList_eq_none {n : JSNumber} {todoLists : List TodoList} :
    loadTodoList n todoLists = none ↔ ∀ l ∈ todoLists, strictEq l.id n = false := by
  simp [loadTodoList, List.find?_eq_none]

theorem loadTodoList_some_mem {n : JSNumber} {todoLists : List TodoList} {l : TodoList}
    (h : loadTodoList n todoLists = some l) : l ∈ todoLists ∧ strictEq l.id n = true := by
  unfold loadTodoList at h
  exact ⟨List.mem_of_find?_eq_some h, by simpa using List.find?_some h⟩

theorem flashErrors_todoLists (st : State) (errors : List String) :
    (flashErrors st errors).todoLists = st.todoLists := rfl

theorem addFlash_todoLists (st : State) (type message : String) :
    (State.addFlash st type message).todoLists = st.todoLists := rfl

/-! ## Handlers on a title that fails validation -/

theorem postLists_invalid (st : State) (todoListTitle : String)
    (h : (validateNewList st.todoLists todoListTitle).2.isEmpty = false) :
    postLists st todoListTitle =
      { state := { st with flash := [] },
        actions :=
          [Action.render "new-list"
            { flash := some (st.flash ++
                (validateNewList st.todoLists todoListTitle).2.map (fun msg => ("error", msg))),
              todoListTitle := some (trim todoListTitle) }] } := by
  simp only [postLists, h, flashErrors]
  simp [validateNewList, validateTitle_fst]

theorem postEdit_invalid (st : State) (todoListId todoListTitle : String) (l : TodoList)
    (hl : loadTodoList (Number todoListId) st.todoLists = some l)
    (h : (validateEditList st.todoLists todoListTitle).2.isEmpty = false) :
    postEdit st todoListId todoListTitle =
      { state := { st with flash := [] },
        actions :=
          [Action.render "edit-list"
            { flash := some (st.flash ++
                (validateEditList st.todoLists todoListTitle).2.map (fun msg => ("error", msg))),
              todoListTitle := some (trim todoListTitle),
              todos := some (sortTodos l) }] } := by
  simp only [postEdit, hl, h, flashErrors]
  simp [validateEditList, validateTitle_fst]

theorem postTodos_invalid (st : State) (todoListId todoTitle : String) (l : TodoList)
    (hl : loadTodoList (Number todoListId) st.todoLists = some l)
    (h : (validateNewTodo st.todoLists todoTitle).2.isEmpty = false) :
    postTodos st todoListId todoTitle =
      { state := { st with flash := [] },
        actions :=
          [Action.render "list"
            { flash := some (st.flash ++
                (validateNewTodo st.todoLists todoTitle).2.map (fun msg => ("error", msg))),
              todoList := some l,
              todos := some (sortTodos l),
              todoTitle := some (trim todoTitle) }] } := by
  simp only [postTodos, hl, h, flashErrors]
  simp [validateNewTodo, validateTitle_fst]

theorem validateTitle_invalid_of (a b c : String) (todoLists : List TodoList)
    (field : String)
    (hbad : countedLength (trim field) < 1 ∨ 100 < countedLength (trim field) ∨
      ∃ l ∈ todoLists, l.title = trim field) :
    (validateTitle a b c todoLists field).2.isEmpty = false := by
  rw [← Bool.not_eq_true, validateTitle_isEmpty]
  rintro ⟨h1, h2, h3⟩
  rcases hbad with h | h | ⟨l, hl, hlt⟩
  · omega
  · omega
  · exact h3 l hl hlt

theorem exists_error_flash (flash : List (String × String)) (errors : List String)
    (h : errors.isEmpty = false) :
    ∃ msg, ("error", msg) ∈ flash ++ errors.map (fun msg => ("error", msg)) := by
  cases errors with
  | nil => cases h
  | cons m ms => exact ⟨m, by simp⟩

/-! ## Deleting a list -/

theorem findIndex_eq_none {α : Type} (p : α → Bool) (l : List α) :
    findIndex p l = none ↔ ∀ x ∈ l, p x = false := by
  induction l with
  | nil => simp [findIndex]
  | cons x xs ih =>
    by_cases hx : p x = true
    · simp [findIndex, hx]
    · simp [findIndex, hx, ih]

theorem findIndex_split {α : Type} (p : α → Bool) (l : List α) (i : Nat)
    (h : findIndex p l = some i) :
    ∃ pre x post, l = pre ++ x :: post ∧ p x = true ∧ (∀ y ∈ pre, p y = false) ∧
      pre.length = i ∧ l.eraseIdx i = pre ++ post := by
  induction l generalizing i with
  | nil => simp [findIndex] at h
  | cons x xs ih =>
    by_cases hx : p x = true
    · simp only [findIndex, hx, if_true, Option.some.injEq] at h
      subst h
      exact ⟨[], x, xs, rfl, hx, by simp, rfl, rfl⟩
    · rw [findIndex, if_neg hx] at h
      obtain ⟨j, hj, rfl⟩ := Option.map_eq_some'.mp h
      obtain ⟨pre, y, post, hl, hy, hpre, hlen, her⟩ := ih j hj
      refine ⟨x :: pre, y, post, by simp [hl], hy, ?_, by simp [hlen], ?_⟩
      · intro z hz
        rcases List.mem_cons.mp hz with rfl | hz
        · simpa using hx
        · exact hpre z hz
      · simp [List.eraseIdx, her]

/-! ## Sorting for display -/

theorem sortTodoLists_perm (lists : List TodoList) : (sortTodoLists lists).Perm lists :=
  List.perm_insertionSort _ lists

/-! ## The title invariant -/

theorem titlesCounted_of_map_eq {l₁ l₂ : List TodoList}
    (h : l₂.map (fun l => l.title) = l₁.map (fun l => l.title)) (hv : TitlesCounted l₁) :
    TitlesCounted l₂ := by
  have key : ∀ ls : List TodoList,
      (∀ l ∈ ls, 1 ≤ countedLength l.title ∧ countedLength l.title ≤ 100) ↔
        ∀ t ∈ ls.map (fun l => l.title), 1 ≤ countedLength t ∧ countedLength t ≤ 100 := by
    intro ls
    simp
  refine ⟨(key l₂).mpr ?_, ?_⟩
  · rw [h]
    exact (key l₁).mp hv.1
  · rw [h]
    exact hv.2

theorem titlesCounted_modifyFirst_of_preserve (p : TodoList → Bool) (f : TodoList → TodoList)
    (hf : ∀ x, (f x).title = x.title) {ls : List TodoList} (hv : TitlesCounted ls) :
    TitlesCounted (modifyFirst p f ls) :=
  titlesCounted_of_map_eq (modifyFirst_map_of_preserve p f (fun l => l.title) hf ls) hv

theorem titlesCounted_sublist {l₁ l₂ : List TodoList} (h : l₂.Sublist l₁)
    (hv : TitlesCounted l₁) : TitlesCounted l₂ :=
  ⟨fun l hl => hv.1 l (h.subset hl), hv.2.sublist (h.map _)⟩

theorem titlesCounted_append_new {ls : List TodoList} (hv : TitlesCounted ls) (n : TodoList)
    (hlen : 1 ≤ countedLength n.title ∧ countedLength n.title ≤ 100)
    (hu : ∀ l ∈ ls, l.title ≠ n.title) : TitlesCounted (ls ++ [n]) := by
  refine ⟨?_, ?_⟩
  · intro l hl
    rcases List.mem_append.mp hl with h | h
    · exact hv.1 l h
    · rw [List.mem_singleton.mp h]
      exact hlen
  · rw [List.map_append, List.nodup_append]
    refine ⟨hv.2, by simp, ?_⟩
    intro a ha hb
    simp only [List.map_cons, List.map_nil, List.mem_singleton] at hb
    obtain ⟨l, hl, rfl⟩ := List.mem_map.mp ha
    exact hu l hl hb

theorem titlesCounted_rename (p : TodoList → Bool) (title : String) {ls : List TodoList}
    (hv : TitlesCounted ls) (hlen : 1 ≤ countedLength title ∧ countedLength title ≤ 100)
    (hu : ∀ l ∈ ls, l.title ≠ title) :
    TitlesCounted (modifyFirst p (fun l => l.setTitle title) ls) := by
  refine ⟨?_, ?_⟩
  · intro l hl
    rcases modifyFirst_mem _ _ _ _ hl with h | ⟨x, _, _, rfl⟩
    · exact hv.1 l h
    · exact hlen
  · induction ls with
    | nil => simp [modifyFirst]
    | cons x xs ih =>
      have hvx : TitlesCounted xs := titlesCounted_sublist (List.sublist_cons_self x xs) hv
      have hux : ∀ l ∈ xs, l.title ≠ title := fun l hl => hu l (List.mem_cons_of_mem _ hl)
      have hnd := hv.2
      rw [List.map_cons, List.nodup_cons] at hnd
      by_cases hx : p x = true
      · rw [modifyFirst, if_pos hx, List.map_cons, List.nodup_cons]
        refine ⟨?_, hnd.2⟩
        intro hmem
        obtain ⟨l, hl, hlt⟩ := List.mem_map.mp hmem
        exact hux l hl hlt
      · rw [modifyFirst, if_neg hx, List.map_cons, List.nodup_cons]
        refine ⟨?_, ih hvx hux⟩
        intro hmem
        obtain ⟨l, hl, hlt⟩ := List.mem_map.mp hmem
        rcases modifyFirst_mem _ _ _ _ hl with h | ⟨y, _, _, rfl⟩
        · exact hnd.1 (List.mem_map.mpr ⟨l, h, hlt⟩)
        · exact hu x (List.mem_cons_self _ _) hlt.symm

/-! ## Creating a list -/


/-- C1: submitting to `POST /lists` a title whose trimmed form is the title of a list
already in the session fails validation (the chain reports at least one error), the
handler re-renders `new-list` with an error message, and the list collection is
unchanged. -/
theorem postLists_duplicate_title (st : State) (todoListTitle : String)
    (hdup : ∃ l ∈ st.todoLists, l.title = trim todoListTitle) :
    (validateNewList st.todoLists todoListTitle).2 ≠ [] ∧
      (postLists st todoListTitle).state.todoLists = st.todoLists ∧
      ∃ msgs, (postLists st todoListTitle).actions =
          [Action.render "new-list"
            { flash := some msgs, todoListTitle := some (trim todoListTitle) }] ∧
        ∃ msg, ("error", msg) ∈ msgs := by
  have hbad : (validateNewList st.todoLists todoListTitle).2.isEmpty = false :=
    validateTitle_invalid_of _ _ _ _ _ (Or.inr (Or.inr hdup))
  refine ⟨?_, ?_, ?_⟩
  · intro h
    rw [h] at hbad
    cases hbad
  · rw [postLists_invalid st todoListTitle hbad]
  · rw [postLists_invalid st todoListTitle hbad]
    exact ⟨_, rfl, exists_error_flash _ _ hbad⟩

theorem postLists_duplicate_title_witness :
    (∃ l ∈ sampleState.todoLists, l.title = trim "  Work ") ∧
      (validateNewList sampleState.todoLists "  Work ").2 ≠ [] ∧
      (postLists sampleState "  Work ").state.todoLists = sampleState.todoLists ∧
      ∃ msgs, (postLists sampleState "  Work ").actions =
          [Action.render "new-list"
            { flash := some msgs, todoListTitle := some (trim "  Work ") }] ∧
        ∃ msg, ("error", msg) ∈ msgs :=
  ⟨by decide, postLists_duplicate_title sampleState "  Work " (by decide)⟩

/-- C2 (as stated, refuted): the title made of the single character U+FE0F has a
trimmed form of length 1 that is the title of no list, yet `isLength({ min: 1 })`
counts it as 0: `POST /lists` reports "The list title is required", re-renders
`new-list` and appends nothing. -/
theorem postLists_selector_title_rejected :
    (trim selectorTitle).length = 1 ∧
      (∀ l ∈ State.empty.todoLists, l.title ≠ trim selectorTitle) ∧
      (validateNewList State.empty.todoLists selectorTitle).2 =
        ["The list title is required"] ∧
      (postLists State.empty selectorTitle).state.todoLists = State.empty.todoLists ∧
      (postLists State.empty selectorTitle).actions ≠ [Action.redirect "/lists"] := by
  refine ⟨by decide, by decide, by decide, by decide, by decide⟩

/-- C2 (amended): submitting to `POST /lists` a title whose trimmed form counts 1 to
100 under `isLength` (its characters, the variation selectors U+FE0E and U+FE0F
left out) and is the title of no list in the session passes validation; the handler
redirects to `/lists`, the new collection is the old one followed by exactly one new
list, titled with the trimmed title and holding no todos, and the next `GET /lists`
renders a rearrangement of that collection, so the new list is shown. -/
theorem postLists_valid_title (st : State) (todoListTitle : String)
    (hmin : 1 ≤ countedLength (trim todoListTitle))
    (hmax : countedLength (trim todoListTitle) ≤ 100)
    (huniq : ∀ l ∈ st.todoLists, l.title ≠ trim todoListTitle) :
    (validateNewList st.todoLists todoListTitle).2 = [] ∧
      (postLists st todoListTitle).actions = [Action.redirect "/lists"] ∧
      ∃ newList : TodoList,
        newList.title = trim todoListTitle ∧ newList.todos = [] ∧
        (postLists st todoListTitle).state.todoLists = st.todoLists ++ [newList] ∧
        ∃ shown,
          (handle (postLists st todoListTitle).state Request.getLists).actions =
            [Action.render "lists" { todoLists := some shown }] ∧
          shown.Perm (st.todoLists ++ [newList]) ∧ newList ∈ shown := by
  have hok : (validateNewList st.todoLists todoListTitle).2.isEmpty = true :=
    (validateTitle_isEmpty _ _ _ _ _).mpr ⟨hmin, hmax, huniq⟩
  have hfst : (validateNewList st.todoLists todoListTitle).1 = trim todoListTitle :=
    validateTitle_fst _ _ _ _ _
  have hst : (postLists st todoListTitle).state.todoLists =
      st.todoLists ++ [TodoList.new st.currentId (trim todoListTitle)] := by
    simp only [postLists, hok, if_true, addFlash_todoLists, hfst]
  refine ⟨List.isEmpty_iff.mp hok, ?_, TodoList.new st.currentId (trim todoListTitle),
    rfl, rfl, hst, ?_⟩
  · simp only [postLists, hok, if_true]
  · refine ⟨sortTodoLists (st.todoLists ++ [TodoList.new st.currentId (trim todoListTitle)]),
      ?_, sortTodoLists_perm _, ?_⟩
    · simp only [handle, getLists, flashMiddleware, hst]
    · exact (sortTodoLists_perm _).mem_iff.mpr (by simp)

theorem postLists_valid_title_witness :
    (1 ≤ countedLength (trim " Garden ") ∧ countedLength (trim " Garden ") ≤ 100 ∧
      ∀ l ∈ sampleState.todoLists, l.title ≠ trim " Garden ") ∧
    ((validateNewList sampleState.todoLists " Garden ").2 = [] ∧
      (postLists sampleState " Garden ").actions = [Action.redirect "/lists"] ∧
      ∃ newList : TodoList,
        newList.title = trim " Garden " ∧ newList.todos = [] ∧
        (postLists sampleState " Garden ").state.todoLists =
          sampleState.todoLists ++ [newList] ∧
        ∃ shown,
          (handle (postLists sampleState " Garden ").state Request.getLists).actions =
            [Action.render "lists" { todoLists := some shown }] ∧
          shown.Perm (sampleState.todoLists ++ [newList]) ∧ newList ∈ shown) :=
  ⟨⟨by decide, by decide, by decide⟩,
    postLists_valid_title sampleState " Garden " (by decide) (by decide) (by decide)⟩

/-! ## Deleting a list, renaming a list, adding a todo -/

/-- C4: when the path id of `POST /lists/:todoListId/destroy` denotes the id of some
list in the session, the handler removes exactly one list: the collection splits as
`pre ++ x :: post` where `x` carries that id and no list of `pre` does, and the new
collection is `pre ++ post`, every other list kept as it was and in its place. -/
theorem postDestroyList_removes_one (st : State) (todoListId : String) (id : Nat)
    (hid : strictEq id (Number todoListId) = true)
    (hmem : ∃ l ∈ st.todoLists, l.id = id) :
    ∃ pre x post,
      st.todoLists = pre ++ x :: post ∧ x.id = id ∧ (∀ l ∈ pre, l.id ≠ id) ∧
      (postDestroyList st todoListId).state.todoLists = pre ++ post ∧
      (postDestroyList st todoListId).state.todoLists.length + 1 = st.todoLists.length ∧
      (postDestroyList st todoListId).actions = [Action.redirect "/lists"] := by
  obtain ⟨l, hl, hlid⟩ := hmem
  cases hfi : findIndex (fun todoList => strictEq todoList.id (Number todoListId))
      st.todoLists with
  | none =>
    have := (findIndex_eq_none _ _).mp hfi l hl
    simp only [hlid, hid] at this
    cases this
  | some index =>
    obtain ⟨pre, x, post, hsplit, hx, hpre, _, her⟩ := findIndex_split _ _ _ hfi
    have hres : (postDestroyList st todoListId).state.todoLists = pre ++ post := by
      simp only [postDestroyList, hfi, addFlash_todoLists, her]
    refine ⟨pre, x, post, hsplit, strictEq_inj hx hid, ?_, hres, ?_, ?_⟩
    · intro y hy hyid
      have := hpre y hy
      simp only [hyid, hid] at this
      cases this
    · rw [hres, hsplit]
      simp
      omega
    · simp only [postDestroyList, hfi]

theorem postDestroyList_removes_one_witness :
    (strictEq 1 (Number "1") = true ∧ ∃ l ∈ sampleState.todoLists, l.id = 1) ∧
    ∃ pre x post,
      sampleState.todoLists = pre ++ x :: post ∧ x.id = 1 ∧ (∀ l ∈ pre, l.id ≠ 1) ∧
      (postDestroyList sampleState "1").state.todoLists = pre ++ post ∧
      (postDestroyList sampleState "1").state.todoLists.length + 1 =
        sampleState.todoLists.length ∧
      (postDestroyList sampleState "1").actions = [Action.redirect "/lists"] :=
  ⟨⟨by decide, by decide⟩,
    postDestroyList_removes_one sampleState "1" 1 (by decide) (by decide)⟩

/-- C8 (as stated, refuted): the 101-character title `longTitle` is longer than 100
characters, yet `isLength({ max: 100 })` counts it as 100 and it is the title of no
list, so validation passes: `POST /lists/3/edit` renames list 3 and
`POST /lists/3/todos` adds a todo to it, each redirecting to `/lists/3`. -/
theorem long_title_applied :
    loadTodoList (Number "3") sampleState.todoLists = some sampleWork ∧
      100 < (trim longTitle).length ∧
      (postEdit sampleState "3" longTitle).state.todoLists ≠ sampleState.todoLists ∧
      (postEdit sampleState "3" longTitle).actions = [Action.redirect "/lists/3"] ∧
      (postTodos sampleState "3" longTitle).state.todoLists ≠ sampleState.todoLists ∧
      (postTodos sampleState "3" longTitle).actions = [Action.redirect "/lists/3"] := by
  refine ⟨by decide, by decide, by decide, by decide, by decide, by decide⟩

/-- C8 (amended): when the addressed list exists and the submitted title fails
validation (its trimmed form counts 0 or more than 100 under `isLength`, which
leaves the variation selectors U+FE0E and U+FE0F out of the count, or it is the
title of some list in the session), `POST /lists/:todoListId/edit` re-renders
`edit-list` and `POST /lists/:todoListId/todos` re-renders `list`, each with at
least one error message, and neither changes the list collection. -/
theorem invalid_title_rerenders (st : State) (todoListId title : String) (l : TodoList)
    (hl : loadTodoList (Number todoListId) st.todoLists = some l)
    (hbad : countedLength (trim title) < 1 ∨ 100 < countedLength (trim title) ∨
      ∃ l' ∈ st.todoLists, l'.title = trim title) :
    ((postEdit st todoListId title).state.todoLists = st.todoLists ∧
      ∃ msgs, (postEdit st todoListId title).actions =
          [Action.render "edit-list"
            { flash := some msgs, todoListTitle := some (trim title),
              todos := some (sortTodos l) }] ∧
        ∃ msg, ("error", msg) ∈ msgs) ∧
    ((postTodos st todoListId title).state.todoLists = st.todoLists ∧
      ∃ msgs, (postTodos st todoListId title).actions =
          [Action.render "list"
            { flash := some msgs, todoList := some l, todos := some (sortTodos l),
              todoTitle := some (trim title) }] ∧
        ∃ msg, ("error", msg) ∈ msgs) := by
  have h1 : (validateEditList st.todoLists title).2.isEmpty = false :=
    validateTitle_invalid_of _ _ _ _ _ hbad
  have h2 : (validateNewTodo st.todoLists title).2.isEmpty = false :=
    validateTitle_invalid_of _ _ _ _ _ hbad
  rw [postEdit_invalid st todoListId title l hl h1,
    postTodos_invalid st todoListId title l hl h2]
  exact ⟨⟨rfl, _, rfl, exists_error_flash _ _ h1⟩, ⟨rfl, _, rfl, exists_error_flash _ _ h2⟩⟩

theorem invalid_title_rerenders_witness :
    (loadTodoList (Number "3") sampleState.todoLists = some sampleWork ∧
      (countedLength (trim "   ") < 1 ∨ 100 < countedLength (trim "   ") ∨
        ∃ l' ∈ sampleState.todoLists, l'.title = trim "   ")) ∧
    (((postEdit sampleState "3" "   ").state.todoLists = sampleState.todoLists ∧
      ∃ msgs, (postEdit sampleState "3" "   ").actions =
          [Action.render "edit-list"
            { flash := some msgs, todoListTitle := some (trim "   "),
              todos := some (sortTodos sampleWork) }] ∧
        ∃ msg, ("error", msg) ∈ msgs) ∧
    ((postTodos sampleState "3" "   ").state.todoLists = sampleState.todoLists ∧
      ∃ msgs, (postTodos sampleState "3" "   ").actions =
          [Action.render "list"
            { flash := some msgs, todoList := some sampleWork,
              todos := some (sortTodos sampleWork), todoTitle := some (trim "   ") }] ∧
        ∃ msg, ("error", msg) ∈ msgs)) :=
  ⟨⟨by decide, by decide⟩,
    invalid_title_rerenders sampleState "3" "   " sampleWork (by decide) (by decide)⟩

/-- C10: when the addressed list exists and the trimmed title submitted to
`POST /lists/:todoListId/edit` is that list's own current title, validation fails
(the uniqueness check scans every list, the renamed one included), the handler
re-renders `edit-list` with an error message, and the state the handler was entered
with is unchanged. -/
theorem postEdit_own_title (st : State) (todoListId title : String) (l : TodoList)
    (hl : loadTodoList (Number todoListId) st.todoLists = some l)
    (hown : trim title = l.title) :
    (validateEditList st.todoLists title).2 ≠ [] ∧
      (postEdit st todoListId title).state.todoLists = st.todoLists ∧
      (postEdit (flashMiddleware st) todoListId title).state = flashMiddleware st ∧
      ∃ msgs, (postEdit st todoListId title).actions =
          [Action.render "edit-list"
            { flash := some msgs, todoListTitle := some (trim title),
              todos := some (sortTodos l) }] ∧
        ∃ msg, ("error", msg) ∈ msgs := by
  have hbad : (validateEditList st.todoLists title).2.isEmpty = false :=
    validateTitle_invalid_of _ _ _ _ _
      (Or.inr (Or.inr ⟨l, (loadTodoList_some_mem hl).1, hown.symm⟩))
  refine ⟨?_, ?_, ?_, ?_⟩
  · intro h
    rw [h] at hbad
    cases hbad
  · rw [postEdit_invalid st todoListId title l hl hbad]
  · rw [postEdit_invalid (flashMiddleware st) todoListId title l hl hbad]
    rfl
  · rw [postEdit_invalid st todoListId title l hl hbad]
    exact ⟨_, rfl, exists_error_flash _ _ hbad⟩

theorem postEdit_own_title_witness :
    (loadTodoList (Number "3") sampleState.todoLists = some sampleWork ∧
      trim " Work" = sampleWork.title) ∧
    ((validateEditList sampleState.todoLists " Work").2 ≠ [] ∧
      (postEdit sampleState "3" " Work").state.todoLists = sampleState.todoLists ∧
      (postEdit (flashMiddleware sampleState) "3" " Work").state =
        flashMiddleware sampleState ∧
      ∃ msgs, (postEdit sampleState "3" " Work").actions =
          [Action.render "edit-list"
            { flash := some msgs, todoListTitle := some (trim " Work"),
              todos := some (sortTodos sampleWork) }] ∧
        ∃ msg, ("error", msg) ∈ msgs) :=
  ⟨⟨by decide, by decide⟩,
    postEdit_own_title sampleState "3" " Work" sampleWork (by decide) (by decide)⟩

/-! ## Toggling a todo -/

theorem loadTodo_eq_some {n m : JSNumber} {todoLists : List TodoList} {t : Todo} :
    loadTodo n m todoLists = some t ↔
      ∃ l, loadTodoList n todoLists = some l ∧
        l.todos.find? (fun todo => strictEq todo.id m) = some t := by
  unfold loadTodo
  cases loadTodoList n todoLists with
  | none => simp
  | some l => simp

theorem loadTodo_mutateTodo (n m : JSNumber) (f : Todo → Todo)
    (hf : ∀ x, (f x).id = x.id) (todoLists : List TodoList) :
    loadTodo n m (mutateTodo n m f todoLists) = (loadTodo n m todoLists).map f := by
  have hl : loadTodoList n (mutateTodo n m f todoLists) =
      (loadTodoList n todoLists).map (fun todoList =>
        { todoList with
          todos := modifyFirst (fun todo => strictEq todo.id m) f todoList.todos }) := by
    unfold loadTodoList mutateTodo
    exact find?_modifyFirst (fun todoList : TodoList => strictEq todoList.id n)
      (fun todoList =>
        { todoList with
          todos := modifyFirst (fun todo => strictEq todo.id m) f todoList.todos })
      (fun _ => rfl) todoLists
  unfold loadTodo
  rw [hl]
  cases loadTodoList n todoLists with
  | none => rfl
  | some l =>
    simp only [Option.map_some']
    exact find?_modifyFirst _ _ (fun x => by rw [hf x]) _

theorem mutateTodo_mutateTodo (n m : JSNumber) (f g : Todo → Todo)
    (hf : ∀ x, (f x).id = x.id) (todoLists : List TodoList) :
    mutateTodo n m g (mutateTodo n m f todoLists) =
      mutateTodo n m (fun x => g (f x)) todoLists := by
  unfold mutateTodo
  rw [modifyFirst_modifyFirst (fun todoList : TodoList => strictEq todoList.id n)
    (fun todoList =>
      { todoList with
        todos := modifyFirst (fun todo => strictEq todo.id m) f todoList.todos })
    (fun todoList =>
      { todoList with
        todos := modifyFirst (fun todo => strictEq todo.id m) g todoList.todos })
    (fun _ => rfl) todoLists]
  congr 1
  funext l
  simp only
  rw [modifyFirst_modifyFirst (fun todo : Todo => strictEq todo.id m) f g
    (fun x => by show strictEq (f x).id m = strictEq x.id m; rw [hf x]) l.todos]

theorem mutateTodo_eq_self (n m : JSNumber) (f : Todo → Todo) (todoLists : List TodoList)
    (t : Todo) (h : loadTodo n m todoLists = some t) (hft : f t = t) :
    mutateTodo n m f todoLists = todoLists := by
  obtain ⟨l, hl, hfind⟩ := loadTodo_eq_some.mp h
  unfold mutateTodo
  apply modifyFirst_eq_self
  intro x hx
  have hxl : x = l := by
    unfold loadTodoList at hl
    rw [hl] at hx
    exact (Option.some.inj hx).symm
  subst hxl
  have : modifyFirst (fun todo => strictEq todo.id m) f x.todos = x.todos := by
    apply modifyFirst_eq_self
    intro y hy
    rw [hfind] at hy
    rw [← Option.some.inj hy]
    exact hft
  rw [this]

theorem postToggle_found (st : State) (todoListId todoId : String) (t : Todo)
    (h : loadTodo (Number todoListId) (Number todoId) st.todoLists = some t) :
    (postToggle st todoListId todoId).state.todoLists =
        mutateTodo (Number todoListId) (Number todoId)
          (if t.done then Todo.markUndone else Todo.markDone) st.todoLists ∧
      (postToggle st todoListId todoId).actions =
        [Action.redirect ("/lists/" ++ todoListId)] := by
  unfold postToggle
  rw [h]
  cases hd : t.done <;> simp [Todo.isDone, hd, addFlash_todoLists]

/-- C5: when `(todoListId, todoId)` identifies a todo of the session, one
`POST /lists/:todoListId/todos/:todoId/toggle` flips that todo's done-state, and a
second one returns it to the original: the todo found is the original todo again and
the whole list collection equals the original collection. -/
theorem postToggle_twice (st : State) (todoListId todoId : String) (t : Todo)
    (h : loadTodo (Number todoListId) (Number todoId) st.todoLists = some t) :
    loadTodo (Number todoListId) (Number todoId)
        (postToggle st todoListId todoId).state.todoLists =
        some { t with done := !t.done } ∧
      loadTodo (Number todoListId) (Number todoId)
        (postToggle (postToggle st todoListId todoId).state todoListId todoId).state.todoLists =
        some t ∧
      (postToggle (postToggle st todoListId todoId).state todoListId todoId).state.todoLists =
        st.todoLists := by
  have hpres : ∀ x : Todo, ((if t.done then Todo.markUndone else Todo.markDone) x).id = x.id := by
    intro x
    cases t.done <;> rfl
  have h1 := (postToggle_found st todoListId todoId t h).1
  have hload1 : loadTodo (Number todoListId) (Number todoId)
      (postToggle st todoListId todoId).state.todoLists = some { t with done := !t.done } := by
    rw [h1, loadTodo_mutateTodo _ _ _ hpres, h]
    cases hd : t.done <;> simp [Todo.markDone, Todo.markUndone, hd]
  have h2 := (postToggle_found (postToggle st todoListId todoId).state todoListId todoId
    _ hload1).1
  have hfinal : (postToggle (postToggle st todoListId todoId).state todoListId
      todoId).state.todoLists = st.todoLists := by
    rw [h2, h1, mutateTodo_mutateTodo _ _ _ _ hpres]
    apply mutateTodo_eq_self _ _ _ _ t h
    cases t with
    | mk id title done => cases done <;> rfl
  exact ⟨hload1, by rw [hfinal]; exact h, hfinal⟩

theorem postToggle_twice_witness :
    loadTodo (Number "3") (Number "4") sampleState.todoLists =
        some { id := 4, title := "Mail", done := true } ∧
      (loadTodo (Number "3") (Number "4") (postToggle sampleState "3" "4").state.todoLists =
          some { id := 4, title := "Mail", done := false } ∧
        loadTodo (Number "3") (Number "4")
          (postToggle (postToggle sampleState "3" "4").state "3" "4").state.todoLists =
          some { id := 4, title := "Mail", done := true } ∧
        (postToggle (postToggle sampleState "3" "4").state "3" "4").state.todoLists =
          sampleState.todoLists) :=
  ⟨by decide,
    postToggle_twice sampleState "3" "4" { id := 4, title := "Mail", done := true }
      (by decide)⟩

/-! ## Handlers preserve the title invariant -/

theorem postLists_titlesCounted (st : State) (title : String)
    (hv : TitlesCounted st.todoLists) : TitlesCounted (postLists st title).state.todoLists := by
  cases hok : (validateNewList st.todoLists title).2.isEmpty with
  | false => rw [postLists_invalid st title hok]; exact hv
  | true =>
    obtain ⟨h1, h2, h3⟩ := (validateTitle_isEmpty _ _ _ _ _).mp hok
    have hfst : (validateNewList st.todoLists title).1 = trim title :=
      validateTitle_fst _ _ _ _ _
    have hst : (postLists st title).state.todoLists =
        st.todoLists ++ [TodoList.new st.currentId (trim title)] := by
      simp only [postLists, hok, if_true, addFlash_todoLists, hfst]
    rw [hst]
    exact titlesCounted_append_new hv _ ⟨h1, h2⟩ h3

theorem postEdit_titlesCounted (st : State) (todoListId title : String)
    (hv : TitlesCounted st.todoLists) :
    TitlesCounted (postEdit st todoListId title).state.todoLists := by
  cases hl : loadTodoList (Number todoListId) st.todoLists with
  | none => simp only [postEdit, hl]; exact hv
  | some l =>
    cases hok : (validateEditList st.todoLists title).2.isEmpty with
    | false => rw [postEdit_invalid st todoListId title l hl hok]; exact hv
    | true =>
      obtain ⟨h1, h2, h3⟩ := (validateTitle_isEmpty _ _ _ _ _).mp hok
      have hfst : (validateEditList st.todoLists title).1 = trim title :=
        validateTitle_fst _ _ _ _ _
      simp only [postEdit, hl, hok, if_true, addFlash_todoLists, hfst, mutateTodoList]
      exact titlesCounted_rename _ _ hv ⟨h1, h2⟩ h3

theorem postTodos_titlesCounted (st : State) (todoListId title : String)
    (hv : TitlesCounted st.todoLists) :
    TitlesCounted (postTodos st todoListId title).state.todoLists := by
  cases hl : loadTodoList (Number todoListId) st.todoLists with
  | none => simp only [postTodos, hl]; exact hv
  | some l =>
    cases hok : (validateNewTodo st.todoLists title).2.isEmpty with
    | false => rw [postTodos_invalid st todoListId title l hl hok]; exact hv
    | true =>
      simp only [postTodos, hl, hok, if_true, addFlash_todoLists, mutateTodoList]
      refine titlesCounted_modifyFirst_of_preserve _ _ ?_ hv
      intro x
      rfl

theorem postToggle_titlesCounted (st : State) (todoListId todoId : String)
    (hv : TitlesCounted st.todoLists) :
    TitlesCounted (postToggle st todoListId todoId).state.todoLists := by
  cases hl : loadTodo (Number todoListId) (Number todoId) st.todoLists with
  | none => simp only [postToggle, hl]; exact hv
  | some t =>
    rw [(postToggle_found st todoListId todoId t hl).1]
    unfold mutateTodo
    refine titlesCounted_modifyFirst_of_preserve _ _ ?_ hv
    intro x
    rfl

theorem postDestroyTodo_titlesCounted (st : State) (todoListId todoId : String)
    (hv : TitlesCounted st.todoLists) :
    TitlesCounted (postDestroyTodo st todoListId todoId).state.todoLists := by
  unfold postDestroyTodo
  split
  · simp only [addFlash_todoLists, mutateTodoList]
    refine titlesCounted_modifyFirst_of_preserve _ _ ?_ hv
    intro x
    rfl
  · exact hv

theorem postDestroyList_titlesCounted (st : State) (todoListId : String)
    (hv : TitlesCounted st.todoLists) :
    TitlesCounted (postDestroyList st todoListId).state.todoLists := by
  unfold postDestroyList
  split
  · exact hv
  · simp only [addFlash_todoLists]
    exact titlesCounted_sublist (List.eraseIdx_sublist _ _) hv

theorem postCompleteAll_titlesCounted (st : State) (todoListId : String)
    (hv : TitlesCounted st.todoLists) :
    TitlesCounted (postCompleteAll st todoListId).state.todoLists := by
  unfold postCompleteAll
  split
  · exact hv
  · simp only [addFlash_todoLists, mutateTodoList]
    refine titlesCounted_modifyFirst_of_preserve _ _ ?_ hv
    intro x
    rfl

theorem getList_state (st : State) (todoListId : String) :
    (getList st todoListId).state = st := by
  unfold getList
  split <;> rfl

theorem getEdit_state (st : State) (todoListId : String) :
    (getEdit st todoListId).state = st := by
  unfold getEdit
  split <;> rfl

/-- C3 (as stated, refuted): from the empty session, which satisfies the invariant,
`POST /lists` with the 101-character title `longTitle` passes validation
(`isLength` counts it as 100) and leaves a list whose title has 101 characters, so
"at most 100 characters" does not survive the create-list handler. -/
theorem titlesValid_broken_by_postLists :
    TitlesValid State.empty.todoLists ∧
      (handle State.empty (Request.postLists longTitle)).state.todoLists =
        [{ id := 1, title := longTitle, todos := [] }] ∧
      longTitle.length = 101 ∧
      ¬ TitlesValid (handle State.empty (Request.postLists longTitle)).state.todoLists := by
  have hres : (handle State.empty (Request.postLists longTitle)).state.todoLists =
      [{ id := 1, title := longTitle, todos := [] }] := by decide
  refine ⟨⟨fun l hl => (by cases hl), List.nodup_nil⟩, hres, by decide, ?_⟩
  intro hv
  have hlen := (hv.1 _ (by rw [hres]; exact List.mem_singleton.mpr rfl)).2
  exact absurd hlen (by decide)

/-- C3 (amended): with the length of a title measured as `isLength` measures it (its
characters, the variation selectors U+FE0E and U+FE0F left out), the title
invariant (every list has a title that counts 1 to 100, hence is non-empty, and no
two lists share a title) holds for the empty session and is preserved by every
request the application routes, whatever its inputs: create list, rename list,
delete list, add todo, toggle todo, delete todo, complete all, and the `GET`
routes. -/
theorem titlesCounted_invariant (st : State) (r : Request)
    (hv : TitlesCounted st.todoLists) :
    TitlesCounted State.empty.todoLists ∧
      TitlesCounted (handle st r).state.todoLists ∧
      ∀ l ∈ (handle st r).state.todoLists, l.title ≠ "" := by
  have hstep : TitlesCounted (handle st r).state.todoLists := by
    have hm : TitlesCounted (flashMiddleware st).todoLists := hv
    cases r with
    | getRoot => exact hv
    | getNew => exact hv
    | getLists => exact hv
    | postLists t => exact postLists_titlesCounted _ t hm
    | getList i =>
      show TitlesCounted (getList (flashMiddleware st) i).state.todoLists
      rw [getList_state]
      exact hv
    | postToggle i j => exact postToggle_titlesCounted _ i j hm
    | postDestroyTodo i j => exact postDestroyTodo_titlesCounted _ i j hm
    | postDestroyList i => exact postDestroyList_titlesCounted _ i hm
    | postCompleteAll i => exact postCompleteAll_titlesCounted _ i hm
    | postTodos i t => exact postTodos_titlesCounted _ i t hm
    | getEdit i =>
      show TitlesCounted (getEdit (flashMiddleware st) i).state.todoLists
      rw [getEdit_state]
      exact hv
    | postEdit i t => exact postEdit_titlesCounted _ i t hm
  refine ⟨⟨fun l hl => (by cases hl), List.nodup_nil⟩, hstep, ?_⟩
  intro l hl hempty
  have h1 := (hstep.1 l hl).1
  rw [hempty] at h1
  exact absurd h1 (by decide)

theorem titlesCounted_sampleState : TitlesCounted sampleState.todoLists :=
  ⟨by decide, by decide⟩

theorem titlesCounted_invariant_witness :
    TitlesCounted sampleState.todoLists ∧
      (TitlesCounted State.empty.todoLists ∧
        TitlesCounted
          (handle sampleState (Request.postEdit "1" " Garden ")).state.todoLists ∧
        ∀ l ∈ (handle sampleState (Request.postEdit "1" " Garden ")).state.todoLists,
          l.title ≠ "") :=
  ⟨titlesCounted_sampleState,
    titlesCounted_invariant sampleState (Request.postEdit "1" " Garden ")
      titlesCounted_sampleState⟩

/-! ## Ids that match no list -/

theorem isPositiveInteger_of_strictEq {id : Nat} {n : JSNumber} (hid : 1 ≤ id)
    (h : strictEq id n = true) : isPositiveInteger n = true := by
  cases n with
  | nan => simp [strictEq] at h
  | inf neg => simp [strictEq] at h
  | fin neg sig exp =>
    simp only [strictEq, Bool.and_eq_true, Bool.or_eq_true, Bool.not_eq_true',
      beq_iff_eq] at h
    obtain ⟨hsign, hval⟩ := h
    by_cases he : 0 ≤ exp
    · simp only [he, if_true, beq_iff_eq] at hval
      have hsig : sig ≠ 0 := by
        rintro rfl
        simp at hval
        omega
      have hneg : neg = false := by
        rcases hsign with h | h
        · exact h
        · exact absurd h hsig
      simp [isPositiveInteger, he, hneg, hsig]
    · simp only [he, if_false, beq_iff_eq] at hval
      have hpos : 0 < 2 ^ (-exp).toNat := Nat.pos_pow_of_pos _ (by decide)
      have hsig : sig ≠ 0 := by
        rw [hval]
        exact Nat.ne_of_gt (Nat.mul_pos hid hpos)
      have hneg : neg = false := by
        rcases hsign with h | h
        · exact h
        · exact absurd h hsig
      simp [isPositiveInteger, he, hneg, hsig, hval]
      omega

/-- Every route that looks a list up with `loadTodoList` and passes
`next(new Error(...))` when there is none: with no list carrying the requested id
the handler only hands the error to the error handler and leaves the state as it
was. -/
theorem missing_list_not_found (st : State) (todoListId title : String)
    (h : loadTodoList (Number todoListId) st.todoLists = none) :
    getList st todoListId = { state := st, actions := [Action.next "Not found"] } ∧
      getEdit st todoListId = { state := st, actions := [Action.next "Not Found"] } ∧
      postEdit st todoListId title = { state := st, actions := [Action.next "Not Found"] } ∧
      postCompleteAll st todoListId =
        { state := st, actions := [Action.next "Not Found"] } ∧
      postTodos st todoListId title =
        { state := st, actions := [Action.next "Not Found"] } := by
  simp only [getList, getEdit, postEdit, postCompleteAll, postTodos, h, and_self]

/-- With no list carrying the requested id, `POST /lists/:todoListId/destroy` reaches
line 171, where `next` is unbound. -/
theorem postDestroyList_missing (st : State) (todoListId : String)
    (h : loadTodoList (Number todoListId) st.todoLists = none) :
    postDestroyList st todoListId =
      { state := st, actions := [], threw := some "ReferenceError: next is not defined" } := by
  have hfi : findIndex (fun todoList => strictEq todoList.id (Number todoListId))
      st.todoLists = none :=
    (findIndex_eq_none _ _).mpr (loadTodoList_eq_none.mp h)
  simp only [postDestroyList, hfi]

/-- With the list or the todo absent, `POST /lists/:todoListId/todos/:todoId/destroy`
only hands the error to the error handler. -/
theorem postDestroyTodo_missing (st : State) (todoListId todoId : String)
    (h : loadTodo (Number todoListId) (Number todoId) st.todoLists = none) :
    postDestroyTodo st todoListId todoId =
      { state := st, actions := [Action.next "Not Found"] } := by
  unfold postDestroyTodo
  rw [h]
  split
  · rename_i heq
    cases heq
  · rfl

/-- With the list or the todo absent, `POST /lists/:todoListId/todos/:todoId/toggle`
hands the error to the error handler and then still redirects. -/
theorem postToggle_missing (st : State) (todoListId todoId : String)
    (h : loadTodo (Number todoListId) (Number todoId) st.todoLists = none) :
    postToggle st todoListId todoId =
      { state := st,
        actions := [Action.next "Not found", Action.redirect ("/lists/" ++ todoListId)] } := by
  simp only [postToggle, h]

/-- C9 (as stated, refuted): `"0x1"` is not the decimal text of a positive integer,
yet `Number("0x1")` is `1`, so `loadTodoList` returns the list with id 1 and
`GET /lists/0x1` renders it instead of answering not-found. -/
theorem number_hex_id_matches :
    isPositiveDecimalText "0x1" = false ∧
      loadTodoList (Number "0x1") sampleState.todoLists =
        some { id := 1, title := "Home",
               todos := [{ id := 2, title := "Sweep", done := false }] } ∧
      (getList sampleState "0x1").actions ≠ [Action.next "Not found"] := by
  refine ⟨by decide, by decide, ?_⟩
  have h : loadTodoList (Number "0x1") sampleState.todoLists =
      some { id := 1, title := "Home",
             todos := [{ id := 2, title := "Sweep", done := false }] } := by decide
  simp only [getList, h]
  intro hc
  cases hc

/-- C9 (amended): in a session whose list ids are positive integers, a path id
string that `Number` does not convert to a positive integer (non-numeric text gives
`NaN`; also infinities, zero, negatives and fractions) matches no list:
`loadTodoList` returns `undefined` and `GET /lists/:todoListId` hands
`Error("Not found")` to the error handler, which answers with status 404. -/
theorem loadTodoList_not_positive_integer (st : State) (todoListId : String)
    (hids : ∀ l ∈ st.todoLists, 1 ≤ l.id)
    (hnum : isPositiveInteger (Number todoListId) = false) :
    loadTodoList (Number todoListId) st.todoLists = none ∧
      getList st todoListId = { state := st, actions := [Action.next "Not found"] } ∧
      (errorHandler "Not found").status = 404 := by
  have hnone : loadTodoList (Number todoListId) st.todoLists = none := by
    rw [loadTodoList_eq_none]
    intro l hl
    cases hs : strictEq l.id (Number todoListId) with
    | false => rfl
    | true =>
      rw [isPositiveInteger_of_strictEq (hids l hl) hs] at hnum
      cases hnum
  exact ⟨hnone, (missing_list_not_found st todoListId "" hnone).1, rfl⟩

theorem loadTodoList_not_positive_integer_witness :
    ((∀ l ∈ sampleState.todoLists, 1 ≤ l.id) ∧
      isPositiveInteger (Number "abc") = false) ∧
    (loadTodoList (Number "abc") sampleState.todoLists = none ∧
      getList sampleState "abc" =
        { state := sampleState, actions := [Action.next "Not found"] } ∧
      (errorHandler "Not found").status = 404) :=
  ⟨⟨by decide, by decide⟩,
    loadTodoList_not_positive_integer sampleState "abc" (by decide) (by decide)⟩

/-! ## Not-found paths that do not answer as the others do -/

/-- C6 (failing input): in the sample session no list has id 7; `GET /lists/7` hands
`Error("Not found")` to the error handler, but `POST /lists/7/destroy` performs no
response action and throws `ReferenceError: next is not defined`. -/
theorem postDestroyList_missing_list_throws :
    loadTodoList (Number "7") sampleState.todoLists = none ∧
      getList sampleState "7" =
        { state := sampleState, actions := [Action.next "Not found"] } ∧
      postDestroyList sampleState "7" =
        { state := sampleState, actions := [],
          threw := some "ReferenceError: next is not defined" } :=
  ⟨by decide, by decide, by decide⟩

/-- C7 (failing input): in the sample session list 1 has no todo 9;
`POST /lists/1/todos/9/destroy` only hands the error to the error handler, but
`POST /lists/1/todos/9/toggle` hands it over and then also redirects to
`/lists/1`. -/
theorem postToggle_missing_todo_redirects :
    loadTodo (Number "1") (Number "9") sampleState.todoLists = none ∧
      postDestroyTodo sampleState "1" "9" =
        { state := sampleState, actions := [Action.next "Not Found"] } ∧
      postToggle sampleState "1" "9" =
        { state := sampleState,
          actions := [Action.next "Not found", Action.redirect "/lists/1"] } :=
  ⟨by decide, by decide, by decide⟩

end Todos
